import Mathlib

/-!
Verification of the tool-orchestration core of the RAG chat backend.

The definitions below are a shallow embedding of `backend/ai_generator.py`
(class `AIGenerator`): the sequential tool-calling loop `generate_response`,
its helpers `_execute_tools` and `_make_final_response`, and the request
parameters each LLM call is issued with.  The LLM provider is modelled as an
oracle `client : Nat → Except String LLMResponse` giving the outcome of the
i-th `client.messages.create` call of a run (`Except.error e` models the
provider raising an exception whose `str` is `e`); the tool manager is
modelled as a function from tool name and arguments to `Except String String`
(`Except.error e` models `execute_tool` raising).  Every run returns the
Python return value (or the propagated exception) together with the ordered
trace of the request parameters of each LLM call actually issued, so that
call counts and per-call parameters are provable.
-/

set_option maxHeartbeats 1000000

/-- One content block of an LLM response, as `ai_generator.py` consumes it:
a `type` tag (`"text"` or `"tool_use"`), the `text` of a text block, and for
tool-use blocks the tool `name`, the call `id` and the argument mapping
`input`. -/
structure ContentBlock where
  type : String
  text : String
  name : String
  id : String
  input : List (String × String)
  deriving DecidableEq, Repr

/-- One LLM provider response: a stop-reason tag and a list of content
blocks. -/
structure LLMResponse where
  stop_reason : String
  content : List ContentBlock
  deriving DecidableEq, Repr

/-- One tool-result dictionary as built by `AIGenerator._execute_tools`:
`type` is always `"tool_result"`, `tool_use_id` echoes the originating
block's `id`, and `content` is the string the tool returned. -/
structure ToolResult where
  type : String
  tool_use_id : String
  content : String
  deriving DecidableEq, Repr

/-- The content of one conversation turn: plain text (the seeded user query),
the model's content blocks (the appended assistant turn), or the combined
list of tool results (the appended user turn). -/
inductive MessageContent where
  | text (s : String)
  | blocks (bs : List ContentBlock)
  | toolResults (rs : List ToolResult)
  deriving DecidableEq, Repr

/-- One conversation turn of the `messages` list: a role tag and content. -/
structure Message where
  role : String
  content : MessageContent
  deriving DecidableEq, Repr

/-- One entry of the `tools` list handed to the API (the tool menu); its
contents are opaque to `ai_generator.py`, which only forwards the list. -/
structure ToolDef where
  name : String
  deriving DecidableEq, Repr

/-- The request parameters of one `client.messages.create` call: the
pre-built base parameters (`model`, `temperature`, `max_tokens`) plus the
per-call `messages`, `system`, and — when present — the `tools` menu and the
`tool_choice` mode (`some "auto"` models `\x7b"type": "auto"\x7d`; `none`
models the key being absent). -/
structure ApiParams where
  model : String
  temperature : Nat
  max_tokens : Nat
  messages : List Message
  system : String
  tools : Option (List ToolDef)
  tool_choice : Option String
  deriving DecidableEq, Repr

/-- The tool manager's `execute_tool(name, **input)` method:
`Except.ok s` models it returning the string `s`, `Except.error e` models it
raising an exception with message `e`. -/
abbrev ToolManager := String → List (String × String) → Except String String

/-- The LLM provider: the outcome of the i-th `client.messages.create` call
of a run (`Except.error e` models the provider raising). -/
abbrev Client := Nat → Except String LLMResponse

/-- The static system prompt `AIGenerator.SYSTEM_PROMPT`. -/
def SYSTEM_PROMPT : String := " You are an AI assistant specialized in course materials and educational content with access to comprehensive tools for course information.

Tool Usage Guidelines:
- **Content search tool**: Use for questions about specific course content or detailed educational materials
- **Course outline tool**: Use for questions about course structure, lesson lists, or course overviews
- **Sequential tool usage**: You can make multiple tool calls across up to 2 rounds to gather comprehensive information
- **Strategic planning**: Use first tool results to inform subsequent tool calls
- **Tool combination**: You may use different tools in sequence to build comprehensive answers
- Synthesize all tool results into accurate, fact-based responses
- If tools yield no results, state this clearly without offering alternatives

Response Protocol:
- **General knowledge questions**: Answer using existing knowledge without using tools
- **Course content questions**: Use content search tool, optionally followed by outline tool for context
- **Course outline/structure questions**: Use outline tool, optionally followed by content search for details
- **Complex questions**: May require multiple tool calls to gather comprehensive information
- **No meta-commentary**:
 - Provide direct answers only — no reasoning process, tool explanations, or question-type analysis
 - Do not mention \"based on the search results\" or \"according to the outline tool\"

For outline queries, ensure responses include:
- Course title and instructor
- Course link (if available)
- Complete lesson list with lesson numbers and titles
- Lesson links (if available)

All responses must be:
1. **Brief, Concise and focused** - Get to the point quickly
2. **Educational** - Maintain instructional value
3. **Clear** - Use accessible language
4. **Example-supported** - Include relevant examples when they aid understanding
Provide only the direct answer to what was asked.
"

/-- The `AIGenerator` instance state set by `__init__`: the api key and the
model id (the `anthropic.Anthropic` client itself is external). -/
structure AIGenerator where
  api_key : String
  model : String
  deriving DecidableEq, Repr

/-- The pre-built base API parameters of `__init__`. -/
structure BaseParams where
  model : String
  temperature : Nat
  max_tokens : Nat
  deriving DecidableEq, Repr

/-- `self.base_params`: model id, temperature 0, max_tokens 800. -/
def AIGenerator.base_params (g : AIGenerator) : BaseParams :=
  { model := g.model, temperature := 0, max_tokens := 800 }

/-- Python truthiness of the `tools` argument: `None` and the empty list are
falsy, so `if tools:` adds the tool menu only for a non-empty list. -/
def truthyTools : Option (List ToolDef) → Bool
  | none => false
  | some ts => !ts.isEmpty

/-- The request parameters of one in-loop round call: `**self.base_params`,
the current `messages`, the `system` content, and — when `tools` is truthy —
the tool menu with `tool_choice` auto. -/
def AIGenerator.roundParams (g : AIGenerator) (msgs : List Message)
    (sys : String) (tools : Option (List ToolDef)) : ApiParams :=
  { model := g.base_params.model
    temperature := g.base_params.temperature
    max_tokens := g.base_params.max_tokens
    messages := msgs
    system := sys
    tools := if truthyTools tools then tools else none
    tool_choice := if truthyTools tools then some "auto" else none }

/-- The request parameters of `_make_final_response`: `**self.base_params`,
the accumulated `messages` and `system` — explicitly no tools. -/
def AIGenerator.finalParams (g : AIGenerator) (msgs : List Message)
    (sys : String) : ApiParams :=
  { model := g.base_params.model
    temperature := g.base_params.temperature
    max_tokens := g.base_params.max_tokens
    messages := msgs
    system := sys
    tools := none
    tool_choice := none }

/-- The body of the `try` block of `_execute_tools`: walk the response's
content blocks in order; for each block of type `"tool_use"` call
`tool_manager.execute_tool(name, **input)` and collect a `tool_result`
dictionary; the first raising call aborts the walk with its exception. -/
def executeToolsAux (tm : ToolManager) : List ContentBlock → Except String (List ToolResult)
  | [] => Except.ok []
  | b :: rest =>
    if b.type = "tool_use" then
      match tm b.name b.input with
      | Except.error e => Except.error e
      | Except.ok r =>
        match executeToolsAux tm rest with
        | Except.error e => Except.error e
        | Except.ok rs =>
          Except.ok ({ type := "tool_result", tool_use_id := b.id, content := r } :: rs)
    else
      executeToolsAux tm rest

/-- `AIGenerator._execute_tools`: the collected tool results, or the empty
list when any tool call raised (the `except` arm logs and returns `[]`,
discarding the results gathered so far in the round). -/
def execute_tools (tm : ToolManager) (response : LLMResponse) : List ToolResult :=
  match executeToolsAux tm response.content with
  | Except.error _ => []
  | Except.ok rs => rs

/-- How one evaluation of the round loop of `generate_response` ends:
an early `return` with a string, an uncaught exception propagating, or the
`for` loop exhausting `max_tool_rounds` with the accumulated messages. -/
inductive LoopExit where
  | returned (s : String)
  | raised (e : String)
  | exhausted (msgs : List Message)
  deriving DecidableEq, Repr

/-- The `for round_num in range(max_tool_rounds)` loop of
`generate_response`, by recursion on the remaining rounds; `i` is the index
of the next LLM call.  Returns how the loop ended together with the trace of
the request parameters of every LLM call it issued.  Each round: build the
api params (tool menu iff `tools` is truthy), call the LLM (a raise
propagates), return the first block's text on a non-tool stop reason (an
empty content list raises `IndexError`), fall back to the raw first block's
text (or `"No response"`) when no tool manager is present, otherwise append
the assistant turn, run the tools, return `"Tool execution failed"` on an
empty result list, else append the combined tool-result turn and continue. -/
def genRounds (g : AIGenerator) (client : Client) (tools : Option (List ToolDef))
    (tm : Option ToolManager) (sys : String) :
    Nat → Nat → List Message → LoopExit × List ApiParams
  | 0, _, msgs => (LoopExit.exhausted msgs, [])
  | n + 1, i, msgs =>
    let api_params := g.roundParams msgs sys tools
    match client i with
    | Except.error e => (LoopExit.raised e, [api_params])
    | Except.ok response =>
      if response.stop_reason ≠ "tool_use" then
        match response.content.head? with
        | none => (LoopExit.raised "list index out of range", [api_params])
        | some b => (LoopExit.returned b.text, [api_params])
      else
        match tm with
        | none =>
          match response.content.head? with
          | none => (LoopExit.returned "No response", [api_params])
          | some b => (LoopExit.returned b.text, [api_params])
        | some tmgr =>
          let msgs1 := msgs ++ [{ role := "assistant", content := MessageContent.blocks response.content }]
          let tool_results := execute_tools tmgr response
          if tool_results.isEmpty then
            (LoopExit.returned "Tool execution failed", [api_params])
          else
            let msgs2 := msgs1 ++ [{ role := "user", content := MessageContent.toolResults tool_results }]
            let next := genRounds g client tools tm sys n (i + 1) msgs2
            (next.1, api_params :: next.2)

/-- `AIGenerator._make_final_response`: one LLM call with the accumulated
messages and explicitly no tools, inside a `try` that converts any exception
(a provider raise, or the `IndexError` of indexing an empty content list)
into the string `"Error generating final response: <e>"`. -/
def make_final_response (g : AIGenerator) (client : Client) (i : Nat)
    (messages : List Message) (system_content : String) :
    Except String String × List ApiParams :=
  let final_params := g.finalParams messages system_content
  match client i with
  | Except.error e =>
    (Except.ok ("Error generating final response: " ++ e), [final_params])
  | Except.ok final_response =>
    match final_response.content.head? with
    | none =>
      (Except.ok "Error generating final response: list index out of range", [final_params])
    | some b => (Except.ok b.text, [final_params])

/-- The system content of `generate_response`: the static prompt, with the
previous-conversation section appended exactly when `conversation_history`
is truthy (Python: `None` and the empty string are falsy). -/
def system_content (conversation_history : Option String) : String :=
  match conversation_history with
  | some h =>
    if h = "" then SYSTEM_PROMPT
    else SYSTEM_PROMPT ++ "\n\nPrevious conversation:\n" ++ h
  | none => SYSTEM_PROMPT

/-- `AIGenerator.generate_response`: seed the conversation with the single
user turn holding the raw query, run the round loop, and on exhaustion make
the forced final call without tools.  The first component is the Python
return value (`Except.error e` = an uncaught exception propagating to the
caller); the second is the ordered trace of the request parameters of every
LLM call issued during the run. -/
def generate_response (g : AIGenerator) (client : Client) (query : String)
    (conversation_history : Option String) (tools : Option (List ToolDef))
    (tool_manager : Option ToolManager) (max_tool_rounds : Nat) :
    Except String String × List ApiParams :=
  let sys := system_content conversation_history
  let messages : List Message := [{ role := "user", content := MessageContent.text query }]
  let loop := genRounds g client tools tool_manager sys max_tool_rounds 0 messages
  match loop.1 with
  | LoopExit.returned s => (Except.ok s, loop.2)
  | LoopExit.raised e => (Except.error e, loop.2)
  | LoopExit.exhausted msgs =>
    let fin := make_final_response g client loop.2.length msgs sys
    (fin.1, loop.2 ++ fin.2)

/-- One matched snippet of a content search, as `_format_results` consumes
it: the document text and its metadata (course title, optional lesson
number). -/
structure SearchMatch where
  document : String
  course_title : String
  lesson_number : Option Nat
  deriving DecidableEq, Repr

/-- Modelled from the spec: the repository's `search_tools.py`
(`CourseSearchTool._format_results`) is not among the repository files, only
its tests are; per the spec each matched snippet is rendered as a labeled
block — the header `[<course> - Lesson <n>]`, with the lesson segment
omitted when no lesson number is present — followed by the snippet text. -/
def formatBlock (m : SearchMatch) : String :=
  (match m.lesson_number with
   | some n => "[" ++ m.course_title ++ " - Lesson " ++ toString n ++ "]"
   | none => "[" ++ m.course_title ++ "]") ++ "\n" ++ m.document

/-- Modelled from the spec: `CourseSearchTool._format_results` renders all
matched snippets as labeled blocks separated by a blank line. -/
def format_results (results : List SearchMatch) : String :=
  String.intercalate "\n\n" (results.map formatBlock)

/-- The two turns a completed tool round appends to the conversation: the
model's assistant turn with its content blocks, then the combined user turn
with the round's tool results. -/
def roundPair (tm : ToolManager) (r : LLMResponse) : List Message :=
  [{ role := "assistant", content := MessageContent.blocks r.content },
   { role := "user", content := MessageContent.toolResults (execute_tools tm r) }]

/-- The turns appended by round `j`, read off the client oracle. -/
def pairAt (client : Client) (tm : ToolManager) (j : Nat) : List Message :=
  match client j with
  | Except.ok r => roundPair tm r
  | Except.error _ => []

/-- The turns appended by `k` consecutive completed tool rounds starting at
call index `i`. -/
def roundsMsgs (client : Client) (tm : ToolManager) (i : Nat) : Nat → List Message
  | 0 => []
  | k + 1 => pairAt client tm i ++ roundsMsgs client tm (i + 1) k

/-- Call `j` of the run is a completed tool round: the provider answers with
the tool-use stop reason and executing the round's tools yields a non-empty
result list. -/
def toolRoundOK (client : Client) (tm : ToolManager) (j : Nat) : Prop :=
  ∃ r, client j = Except.ok r ∧ r.stop_reason = "tool_use" ∧ execute_tools tm r ≠ []

theorem genRounds_zero (g : AIGenerator) (client : Client)
    (tools : Option (List ToolDef)) (tm : Option ToolManager) (sys : String)
    (i : Nat) (msgs : List Message) :
    genRounds g client tools tm sys 0 i msgs = (LoopExit.exhausted msgs, []) := rfl

theorem genRounds_raised (g : AIGenerator) (client : Client)
    (tools : Option (List ToolDef)) (tm : Option ToolManager) (sys : String)
    (n i : Nat) (msgs : List Message) (e : String)
    (hc : client i = Except.error e) :
    genRounds g client tools tm sys (n + 1) i msgs =
      (LoopExit.raised e, [g.roundParams msgs sys tools]) := by
  simp only [genRounds, hc]

theorem genRounds_direct (g : AIGenerator) (client : Client)
    (tools : Option (List ToolDef)) (tm : Option ToolManager) (sys : String)
    (n i : Nat) (msgs : List Message) (r : LLMResponse) (b : ContentBlock)
    (bs : List ContentBlock) (hc : client i = Except.ok r)
    (hstop : r.stop_reason ≠ "tool_use") (hcont : r.content = b :: bs) :
    genRounds g client tools tm sys (n + 1) i msgs =
      (LoopExit.returned b.text, [g.roundParams msgs sys tools]) := by
  simp only [genRounds, hc]
  rw [if_pos hstop]
  simp [hcont]

theorem genRounds_noManager (g : AIGenerator) (client : Client)
    (tools : Option (List ToolDef)) (sys : String)
    (n i : Nat) (msgs : List Message) (r : LLMResponse) (b : ContentBlock)
    (bs : List ContentBlock) (hc : client i = Except.ok r)
    (hstop : r.stop_reason = "tool_use") (hcont : r.content = b :: bs) :
    genRounds g client tools none sys (n + 1) i msgs =
      (LoopExit.returned b.text, [g.roundParams msgs sys tools]) := by
  simp only [genRounds, hc]
  rw [if_neg (fun h => h hstop)]
  simp [hcont]

theorem genRounds_toolFail (g : AIGenerator) (client : Client)
    (tools : Option (List ToolDef)) (tm : ToolManager) (sys : String)
    (n i : Nat) (msgs : List Message) (r : LLMResponse)
    (hc : client i = Except.ok r) (hstop : r.stop_reason = "tool_use")
    (hempty : execute_tools tm r = []) :
    genRounds g client tools (some tm) sys (n + 1) i msgs =
      (LoopExit.returned "Tool execution failed", [g.roundParams msgs sys tools]) := by
  simp only [genRounds, hc]
  rw [if_neg (fun h => h hstop)]
  simp [hempty]

theorem genRounds_toolStep (g : AIGenerator) (client : Client)
    (tools : Option (List ToolDef)) (tm : ToolManager) (sys : String)
    (n i : Nat) (msgs : List Message) (r : LLMResponse)
    (hc : client i = Except.ok r) (hstop : r.stop_reason = "tool_use")
    (hne : execute_tools tm r ≠ []) :
    genRounds g client tools (some tm) sys (n + 1) i msgs =
      ((genRounds g client tools (some tm) sys n (i + 1) (msgs ++ roundPair tm r)).1,
       g.roundParams msgs sys tools ::
         (genRounds g client tools (some tm) sys n (i + 1) (msgs ++ roundPair tm r)).2) := by
  have hE : (execute_tools tm r).isEmpty = false := by
    cases h : execute_tools tm r with
    | nil => exact absurd h hne
    | cons a as => rfl
  simp only [genRounds, hc]
  rw [if_neg (fun h => h hstop)]
  simp [hE, roundPair, List.append_assoc]

theorem genRounds_split (g : AIGenerator) (client : Client)
    (tools : Option (List ToolDef)) (tm : ToolManager) (sys : String) :
    ∀ (k n i : Nat) (msgs : List Message), k ≤ n →
      (∀ j, j < k → toolRoundOK client tm (i + j)) →
      genRounds g client tools (some tm) sys n i msgs =
        ((genRounds g client tools (some tm) sys (n - k) (i + k)
            (msgs ++ roundsMsgs client tm i k)).1,
         (List.range k).map
             (fun j => g.roundParams (msgs ++ roundsMsgs client tm i j) sys tools)
           ++ (genRounds g client tools (some tm) sys (n - k) (i + k)
                (msgs ++ roundsMsgs client tm i k)).2) := by
  intro k
  induction k with
  | zero =>
    intro n i msgs _ _
    simp [roundsMsgs]
  | succ k ih =>
    intro n i msgs hk hOK
    obtain ⟨m, rfl⟩ : ∃ m, n = m + 1 := ⟨n - 1, by omega⟩
    obtain ⟨r, hc, hstop, hne⟩ := hOK 0 (Nat.succ_pos k)
    rw [Nat.add_zero] at hc
    have hpair : pairAt client tm i = roundPair tm r := by
      simp [pairAt, hc]
    rw [genRounds_toolStep g client tools tm sys m i msgs r hc hstop hne]
    have hOK' : ∀ j, j < k → toolRoundOK client tm ((i + 1) + j) := by
      intro j hj
      have h2 := hOK (j + 1) (by omega)
      have e : i + (j + 1) = (i + 1) + j := by omega
      rwa [e] at h2
    rw [ih m (i + 1) (msgs ++ roundPair tm r) (by omega) hOK']
    have e1 : m + 1 - (k + 1) = m - k := by omega
    have e2 : i + (k + 1) = (i + 1) + k := by omega
    have e3 : msgs ++ roundsMsgs client tm i (k + 1) =
        (msgs ++ roundPair tm r) ++ roundsMsgs client tm (i + 1) k := by
      simp [roundsMsgs, hpair, List.append_assoc]
    rw [e1, e2, e3]
    refine congrArg (fun t => (_, t)) ?_
    rw [List.range_succ_eq_map]
    simp [List.map_map, Function.comp_def, roundsMsgs, hpair, List.append_assoc]

theorem genRounds_all_tool (g : AIGenerator) (client : Client)
    (tools : Option (List ToolDef)) (tm : ToolManager) (sys : String)
    (n : Nat) (msgs : List Message)
    (hOK : ∀ j, j < n → toolRoundOK client tm j) :
    genRounds g client tools (some tm) sys n 0 msgs =
      (LoopExit.exhausted (msgs ++ roundsMsgs client tm 0 n),
       (List.range n).map
         (fun j => g.roundParams (msgs ++ roundsMsgs client tm 0 j) sys tools)) := by
  have h := genRounds_split g client tools tm sys n n 0 msgs le_rfl
    (by simpa using hOK)
  simpa [genRounds_zero] using h

theorem executeToolsAux_forall₂ (tm : ToolManager) :
    ∀ (blocks : List ContentBlock) (rs : List ToolResult),
      executeToolsAux tm blocks = Except.ok rs →
      List.Forall₂ (fun (b : ContentBlock) (res : ToolResult) =>
          res.type = "tool_result" ∧ res.tool_use_id = b.id ∧
          tm b.name b.input = Except.ok res.content)
        (blocks.filter (fun b => b.type == "tool_use")) rs := by
  intro blocks
  induction blocks with
  | nil =>
    intro rs h
    simp only [executeToolsAux] at h
    cases h
    simp
  | cons b rest ih =>
    intro rs h
    by_cases hb : b.type = "tool_use"
    · rw [executeToolsAux, if_pos hb] at h
      cases hcall : tm b.name b.input with
      | error e => rw [hcall] at h; cases h
      | ok r0 =>
        rw [hcall] at h
        cases haux : executeToolsAux tm rest with
        | error e => rw [haux] at h; cases h
        | ok rs0 =>
          rw [haux] at h
          cases h
          have hrec := ih rs0 haux
          simp only [List.filter_cons, beq_iff_eq, hb, if_pos]
          exact List.Forall₂.cons ⟨rfl, rfl, hcall⟩ hrec
    · rw [executeToolsAux, if_neg hb] at h
      have hrec := ih rs h
      simpa [List.filter_cons, hb] using hrec

theorem executeToolsAux_fails (tm : ToolManager) :
    ∀ (blocks : List ContentBlock),
      (∃ b ∈ blocks, b.type = "tool_use" ∧ ∃ e, tm b.name b.input = Except.error e) →
      ∃ e, executeToolsAux tm blocks = Except.error e := by
  intro blocks
  induction blocks with
  | nil =>
    rintro ⟨b, hb, -⟩
    simp at hb
  | cons c rest ih =>
    rintro ⟨b, hb, htype, e, he⟩
    rcases List.mem_cons.mp hb with rfl | hmem
    · rw [executeToolsAux, if_pos htype, he]
      exact ⟨e, rfl⟩
    · by_cases hc : c.type = "tool_use"
      · rw [executeToolsAux, if_pos hc]
        cases hcall : tm c.name c.input with
        | error e2 => exact ⟨e2, rfl⟩
        | ok r0 =>
          obtain ⟨e3, h3⟩ := ih ⟨b, hmem, htype, e, he⟩
          rw [h3]
          exact ⟨e3, rfl⟩
      · rw [executeToolsAux, if_neg hc]
        exact ih ⟨b, hmem, htype, e, he⟩

theorem executeToolsAux_no_tool_use (tm : ToolManager) :
    ∀ (blocks : List ContentBlock), (∀ b ∈ blocks, b.type ≠ "tool_use") →
      executeToolsAux tm blocks = Except.ok [] := by
  intro blocks
  induction blocks with
  | nil => intro _; rfl
  | cons c rest ih =>
    intro h
    rw [executeToolsAux, if_neg (h c (List.mem_cons_self c rest))]
    exact ih (fun b hb => h b (List.mem_cons_of_mem c hb))

theorem execute_tools_of_fail (tm : ToolManager) (r : LLMResponse)
    (h : ∃ b ∈ r.content, b.type = "tool_use" ∧ ∃ e, tm b.name b.input = Except.error e) :
    execute_tools tm r = [] := by
  obtain ⟨e, he⟩ := executeToolsAux_fails tm r.content h
  simp [execute_tools, he]

theorem execute_tools_of_no_tool_use (tm : ToolManager) (r : LLMResponse)
    (h : ∀ b ∈ r.content, b.type ≠ "tool_use") :
    execute_tools tm r = [] := by
  simp [execute_tools, executeToolsAux_no_tool_use tm r.content h]

theorem execute_tools_ne_nil_aux (tm : ToolManager) (r : LLMResponse)
    (h : execute_tools tm r ≠ []) :
    executeToolsAux tm r.content = Except.ok (execute_tools tm r) := by
  unfold execute_tools at *
  cases haux : executeToolsAux tm r.content with
  | error e => rw [haux] at h; exact absurd rfl h
  | ok rs => rfl

theorem execute_tools_correlated (tm : ToolManager) (r : LLMResponse)
    (h : execute_tools tm r ≠ []) :
    List.Forall₂ (fun (b : ContentBlock) (res : ToolResult) =>
        res.type = "tool_result" ∧ res.tool_use_id = b.id ∧
        tm b.name b.input = Except.ok res.content)
      (r.content.filter (fun b => b.type == "tool_use")) (execute_tools tm r) :=
  executeToolsAux_forall₂ tm r.content (execute_tools tm r)
    (execute_tools_ne_nil_aux tm r h)

theorem roundsMsgs_succ_right (client : Client) (tm : ToolManager) :
    ∀ (k i : Nat), roundsMsgs client tm i (k + 1) =
      roundsMsgs client tm i k ++ pairAt client tm (i + k) := by
  intro k
  induction k with
  | zero => intro i; simp [roundsMsgs]
  | succ k ih =>
    intro i
    rw [show roundsMsgs client tm i (k + 1 + 1) =
        pairAt client tm i ++ roundsMsgs client tm (i + 1) (k + 1) from rfl]
    rw [ih (i + 1)]
    rw [show roundsMsgs client tm i (k + 1) =
        pairAt client tm i ++ roundsMsgs client tm (i + 1) k from rfl]
    have e : i + 1 + k = i + (k + 1) := by omega
    rw [e, List.append_assoc]

theorem genRounds_succ_trace (g : AIGenerator) (client : Client)
    (tools : Option (List ToolDef)) (tm : Option ToolManager) (sys : String)
    (n i : Nat) (msgs : List Message) :
    (genRounds g client tools tm sys (n + 1) i msgs).2 =
        [g.roundParams msgs sys tools] ∨
      ∃ tmgr r, tm = some tmgr ∧ client i = Except.ok r ∧
        r.stop_reason = "tool_use" ∧ execute_tools tmgr r ≠ [] ∧
        (genRounds g client tools tm sys (n + 1) i msgs).2 =
          g.roundParams msgs sys tools ::
            (genRounds g client tools tm sys n (i + 1) (msgs ++ roundPair tmgr r)).2 := by
  cases hcl : client i with
  | error e =>
    left
    rw [genRounds_raised g client tools tm sys n i msgs e hcl]
  | ok r =>
    by_cases hstop : r.stop_reason = "tool_use"
    · cases tm with
      | none =>
        left
        simp only [genRounds, hcl]
        rw [if_neg (fun h => h hstop)]
        cases r.content.head? <;> rfl
      | some tmgr =>
        by_cases hne : execute_tools tmgr r = []
        · left
          rw [genRounds_toolFail g client tools tmgr sys n i msgs r hcl hstop hne]
        · right
          refine ⟨tmgr, r, rfl, rfl, hstop, hne, ?_⟩
          rw [genRounds_toolStep g client tools tmgr sys n i msgs r hcl hstop hne]
    · left
      simp only [genRounds, hcl]
      rw [if_pos hstop]
      cases r.content.head? <;> rfl

theorem roundParams_fields (g : AIGenerator) (msgs : List Message)
    (sys : String) (tools : Option (List ToolDef)) :
    (g.roundParams msgs sys tools).model = g.model ∧
      (g.roundParams msgs sys tools).temperature = 0 ∧
      (g.roundParams msgs sys tools).max_tokens = 800 ∧
      (g.roundParams msgs sys tools).system = sys ∧
      (g.roundParams msgs sys tools).messages = msgs := by
  simp [AIGenerator.roundParams, AIGenerator.base_params]

theorem genRounds_params (g : AIGenerator) (client : Client)
    (tools : Option (List ToolDef)) (tm : Option ToolManager) (sys : String) :
    ∀ (n i : Nat) (msgs : List Message) (p : ApiParams),
      p ∈ (genRounds g client tools tm sys n i msgs).2 →
      p.model = g.model ∧ p.temperature = 0 ∧ p.max_tokens = 800 ∧
        p.system = sys := by
  intro n
  induction n with
  | zero =>
    intro i msgs p hp
    rw [genRounds_zero] at hp
    simp at hp
  | succ n ih =>
    intro i msgs p hp
    rcases genRounds_succ_trace g client tools tm sys n i msgs with h1 | ⟨tmgr, r, -, -, -, -, h2⟩
    · rw [h1] at hp
      rcases List.mem_singleton.mp hp with rfl
      obtain ⟨a, b, c, d, -⟩ := roundParams_fields g msgs sys tools
      exact ⟨a, b, c, d⟩
    · rw [h2] at hp
      rcases List.mem_cons.mp hp with rfl | hmem
      · obtain ⟨a, b, c, d, -⟩ := roundParams_fields g msgs sys tools
        exact ⟨a, b, c, d⟩
      · exact ih (i + 1) (msgs ++ roundPair tmgr r) p hmem

theorem generate_response_of_loop (g : AIGenerator) (client : Client)
    (query : String) (hist : Option String) (tools : Option (List ToolDef))
    (tm : Option ToolManager) (cap : Nat) (ex : LoopExit) (tr : List ApiParams)
    (h : genRounds g client tools tm (system_content hist) cap 0
        [{ role := "user", content := MessageContent.text query }] = (ex, tr)) :
    generate_response g client query hist tools tm cap =
      match ex with
      | LoopExit.returned s => (Except.ok s, tr)
      | LoopExit.raised e => (Except.error e, tr)
      | LoopExit.exhausted msgs =>
        ((make_final_response g client tr.length msgs (system_content hist)).1,
         tr ++ (make_final_response g client tr.length msgs (system_content hist)).2) := by
  simp only [generate_response, h]
  cases ex <;> rfl

theorem make_final_response_trace (g : AIGenerator) (client : Client) (i : Nat)
    (messages : List Message) (sys : String) :
    (make_final_response g client i messages sys).2 = [g.finalParams messages sys] := by
  cases hc : client i with
  | error e => simp [make_final_response, hc]
  | ok r => cases hh : r.content.head? <;> simp [make_final_response, hc, hh]

theorem make_final_response_raised (g : AIGenerator) (client : Client) (i : Nat)
    (messages : List Message) (sys : String) (e : String)
    (hc : client i = Except.error e) :
    (make_final_response g client i messages sys).1 =
      Except.ok ("Error generating final response: " ++ e) := by
  simp [make_final_response, hc]

theorem make_final_response_ok (g : AIGenerator) (client : Client) (i : Nat)
    (messages : List Message) (sys : String) (r : LLMResponse) (b : ContentBlock)
    (bs : List ContentBlock) (hc : client i = Except.ok r)
    (hcont : r.content = b :: bs) :
    (make_final_response g client i messages sys).1 = Except.ok b.text := by
  simp [make_final_response, hc, hcont]

theorem finalParams_fields (g : AIGenerator) (msgs : List Message) (sys : String) :
    (g.finalParams msgs sys).model = g.model ∧
      (g.finalParams msgs sys).temperature = 0 ∧
      (g.finalParams msgs sys).max_tokens = 800 ∧
      (g.finalParams msgs sys).system = sys ∧
      (g.finalParams msgs sys).messages = msgs ∧
      (g.finalParams msgs sys).tools = none ∧
      (g.finalParams msgs sys).tool_choice = none := by
  simp [AIGenerator.finalParams, AIGenerator.base_params]

theorem generate_response_trace_extends (g : AIGenerator) (client : Client)
    (query : String) (hist : Option String) (tools : Option (List ToolDef))
    (tm : Option ToolManager) (cap : Nat) :
    ∃ ext, (generate_response g client query hist tools tm cap).2 =
        (genRounds g client tools tm (system_content hist) cap 0
          [{ role := "user", content := MessageContent.text query }]).2 ++ ext ∧
      (ext = [] ∨ ∃ msgs, ext = [g.finalParams msgs (system_content hist)]) := by
  cases h : genRounds g client tools tm (system_content hist) cap 0
      [{ role := "user", content := MessageContent.text query }] with
  | mk ex tr =>
    rw [generate_response_of_loop g client query hist tools tm cap ex tr h]
    cases ex with
    | returned s => exact ⟨[], by simp [h]⟩
    | raised e => exact ⟨[], by simp [h]⟩
    | exhausted msgs =>
      refine ⟨(make_final_response g client tr.length msgs (system_content hist)).2,
        by simp [h], Or.inr ⟨msgs, ?_⟩⟩
      rw [make_final_response_trace]

/-- C8: with `max_tool_rounds = 0` the round-loop body never executes, so a
run issues exactly one LLM call — the forced final call without tools — even
when a non-empty tools list and a tool manager are supplied; its request
parameters hold only the seeded user turn, no tool menu and no tool choice. -/
theorem generate_response_zero_rounds (g : AIGenerator) (client : Client)
    (query : String) (hist : Option String) (tools : Option (List ToolDef))
    (tm : Option ToolManager) :
    (generate_response g client query hist tools tm 0).2 =
        [g.finalParams [{ role := "user", content := MessageContent.text query }]
          (system_content hist)] ∧
      (generate_response g client query hist tools tm 0).2.length = 1 ∧
      ∀ p ∈ (generate_response g client query hist tools tm 0).2,
        p.tools = none ∧ p.tool_choice = none := by
  have h0 : genRounds g client tools tm (system_content hist) 0 0
      [{ role := "user", content := MessageContent.text query }] =
      (LoopExit.exhausted [{ role := "user", content := MessageContent.text query }],
        []) := genRounds_zero _ _ _ _ _ _ _
  rw [generate_response_of_loop g client query hist tools tm 0 _ _ h0]
  simp [make_final_response_trace, AIGenerator.finalParams]

/-- C5: when an LLM response has the tool-use stop condition but no tool
manager was supplied, `generate_response` returns the raw content of that
response (the first block's text) as a best-effort fallback, making no
further LLM call and executing no tool. -/
theorem generate_response_no_manager (g : AIGenerator) (client : Client)
    (query : String) (hist : Option String) (tools : Option (List ToolDef))
    (cap : Nat) (r : LLMResponse) (b : ContentBlock) (bs : List ContentBlock)
    (hcap : 0 < cap) (hc : client 0 = Except.ok r)
    (hstop : r.stop_reason = "tool_use") (hcont : r.content = b :: bs) :
    (generate_response g client query hist tools none cap).1 = Except.ok b.text ∧
      (generate_response g client query hist tools none cap).2.length = 1 := by
  obtain ⟨m, rfl⟩ : ∃ m, cap = m + 1 := ⟨cap - 1, by omega⟩
  have h := genRounds_noManager g client tools (system_content hist) m 0
    [{ role := "user", content := MessageContent.text query }] r b bs hc hstop hcont
  rw [generate_response_of_loop g client query hist tools none (m + 1) _ _ h]
  simp

/-- C2: when the model requests tools in exactly `k` rounds with `k` below
the cap and the `k`-th response has a non-tool stop condition, the run makes
exactly `k + 1` LLM calls and returns the text of the `k + 1`-th response
immediately (for `k = 0`: one call). -/
theorem generate_response_k_rounds_direct (g : AIGenerator) (client : Client)
    (query : String) (hist : Option String) (tools : Option (List ToolDef))
    (tm : ToolManager) (cap k : Nat) (r : LLMResponse) (b : ContentBlock)
    (bs : List ContentBlock)
    (hOK : ∀ j, j < k → toolRoundOK client tm j) (hk : k < cap)
    (hc : client k = Except.ok r) (hstop : r.stop_reason ≠ "tool_use")
    (hcont : r.content = b :: bs) :
    (generate_response g client query hist tools (some tm) cap).1 =
        Except.ok b.text ∧
      (generate_response g client query hist tools (some tm) cap).2.length =
        k + 1 := by
  have hsplit := genRounds_split g client tools tm (system_content hist) k cap 0
    [{ role := "user", content := MessageContent.text query }] (le_of_lt hk)
    (by simpa using hOK)
  obtain ⟨m, hm⟩ : ∃ m, cap - k = m + 1 := ⟨cap - k - 1, by omega⟩
  rw [hm] at hsplit
  have hstep := genRounds_direct g client tools (some tm) (system_content hist) m
    (0 + k)
    ([{ role := "user", content := MessageContent.text query }] ++
      roundsMsgs client tm 0 k)
    r b bs (by simpa using hc) hstop hcont
  rw [hstep] at hsplit
  simp only [Prod.fst, Prod.snd] at hsplit
  rw [generate_response_of_loop g client query hist tools (some tm) cap _ _ hsplit]
  simp

/-- C1: when the model's response has the tool-use stop condition in every
one of the `cap` rounds and every round's tool execution succeeds, the run
makes exactly `cap + 1` LLM calls (`cap = max_tool_rounds`, default 2), the
final call's request parameters carry no tool menu, and the text of that
final response is returned. -/
theorem generate_response_cap_exhausted (g : AIGenerator) (client : Client)
    (query : String) (hist : Option String) (tools : Option (List ToolDef))
    (tm : ToolManager) (cap : Nat) (fresp : LLMResponse) (fb : ContentBlock)
    (fbs : List ContentBlock)
    (hOK : ∀ j, j < cap → toolRoundOK client tm j)
    (hfin : client cap = Except.ok fresp) (hfc : fresp.content = fb :: fbs) :
    (generate_response g client query hist tools (some tm) cap).1 =
        Except.ok fb.text ∧
      (generate_response g client query hist tools (some tm) cap).2.length =
        cap + 1 ∧
      ∃ p, (generate_response g client query hist tools (some tm) cap).2.getLast? =
          some p ∧ p.tools = none ∧ p.tool_choice = none := by
  have hall := genRounds_all_tool g client tools tm (system_content hist) cap
    [{ role := "user", content := MessageContent.text query }] hOK
  rw [generate_response_of_loop g client query hist tools (some tm) cap _ _ hall]
  simp only [List.length_map, List.length_range, make_final_response_trace]
  refine ⟨?_, by simp, ?_⟩
  · exact make_final_response_ok g client cap _ (system_content hist) fresp fb fbs
      hfin hfc
  · refine ⟨g.finalParams
      ([{ role := "user", content := MessageContent.text query }] ++
        roundsMsgs client tm 0 cap) (system_content hist), ?_, rfl, rfl⟩
    rw [List.getLast?_concat]

/-- C3: when executing one of the requested tool calls of a round raises, the
whole round is aborted: `_execute_tools` discards the results gathered so
far and returns the empty list, no combined tool-result turn is sent, the
loop terminates with no further LLM call, and the single generic string
"Tool execution failed" is returned. -/
theorem generate_response_tool_raise (g : AIGenerator) (client : Client)
    (query : String) (hist : Option String) (tools : Option (List ToolDef))
    (tm : ToolManager) (cap k : Nat) (r : LLMResponse)
    (hOK : ∀ j, j < k → toolRoundOK client tm j) (hk : k < cap)
    (hc : client k = Except.ok r) (hstop : r.stop_reason = "tool_use")
    (hfail : ∃ b ∈ r.content, b.type = "tool_use" ∧
      ∃ e, tm b.name b.input = Except.error e) :
    execute_tools tm r = [] ∧
      (generate_response g client query hist tools (some tm) cap).1 =
        Except.ok "Tool execution failed" ∧
      (generate_response g client query hist tools (some tm) cap).2.length =
        k + 1 := by
  have hempty : execute_tools tm r = [] := execute_tools_of_fail tm r hfail
  have hsplit := genRounds_split g client tools tm (system_content hist) k cap 0
    [{ role := "user", content := MessageContent.text query }] (le_of_lt hk)
    (by simpa using hOK)
  obtain ⟨m, hm⟩ : ∃ m, cap - k = m + 1 := ⟨cap - k - 1, by omega⟩
  rw [hm] at hsplit
  have hstep := genRounds_toolFail g client tools tm (system_content hist) m (0 + k)
    ([{ role := "user", content := MessageContent.text query }] ++
      roundsMsgs client tm 0 k) r (by simpa using hc) hstop hempty
  rw [hstep] at hsplit
  simp only [Prod.fst, Prod.snd] at hsplit
  rw [generate_response_of_loop g client query hist tools (some tm) cap _ _ hsplit]
  exact ⟨hempty, by simp, by simp⟩

/-- C9: when a response has the tool-use stop condition and a tool manager
is present but no content block has type "tool_use", `_execute_tools`
returns the empty list and `generate_response` returns "Tool execution
failed" without executing any tool and with no further LLM call. -/
theorem generate_response_no_tool_blocks (g : AIGenerator) (client : Client)
    (query : String) (hist : Option String) (tools : Option (List ToolDef))
    (tm : ToolManager) (cap k : Nat) (r : LLMResponse)
    (hOK : ∀ j, j < k → toolRoundOK client tm j) (hk : k < cap)
    (hc : client k = Except.ok r) (hstop : r.stop_reason = "tool_use")
    (hnone : ∀ b ∈ r.content, b.type ≠ "tool_use") :
    execute_tools tm r = [] ∧
      (generate_response g client query hist tools (some tm) cap).1 =
        Except.ok "Tool execution failed" ∧
      (generate_response g client query hist tools (some tm) cap).2.length =
        k + 1 := by
  have hempty : execute_tools tm r = [] := execute_tools_of_no_tool_use tm r hnone
  have hsplit := genRounds_split g client tools tm (system_content hist) k cap 0
    [{ role := "user", content := MessageContent.text query }] (le_of_lt hk)
    (by simpa using hOK)
  obtain ⟨m, hm⟩ : ∃ m, cap - k = m + 1 := ⟨cap - k - 1, by omega⟩
  rw [hm] at hsplit
  have hstep := genRounds_toolFail g client tools tm (system_content hist) m (0 + k)
    ([{ role := "user", content := MessageContent.text query }] ++
      roundsMsgs client tm 0 k) r (by simpa using hc) hstop hempty
  rw [hstep] at hsplit
  simp only [Prod.fst, Prod.snd] at hsplit
  rw [generate_response_of_loop g client query hist tools (some tm) cap _ _ hsplit]
  exact ⟨hempty, by simp, by simp⟩

/-- C4 (amended): an exception raised by the LLM provider during an in-loop
round call is not caught and propagates to the caller; an exception during
the forced final call made after the round cap is exhausted is caught by
`_make_final_response` and converted into the string
"Error generating final response: ..." returned as a normal result. -/
theorem generate_response_llm_raise (g : AIGenerator) (client : Client)
    (query : String) (hist : Option String) (tools : Option (List ToolDef))
    (tm : ToolManager) (cap k : Nat) (e : String)
    (hOK : ∀ j, j < k → toolRoundOK client tm j) (hk : k ≤ cap)
    (hraise : client k = Except.error e) :
    (generate_response g client query hist tools (some tm) cap).1 =
      if k < cap then Except.error e
      else Except.ok ("Error generating final response: " ++ e) := by
  by_cases hlt : k < cap
  · rw [if_pos hlt]
    have hsplit := genRounds_split g client tools tm (system_content hist) k cap 0
      [{ role := "user", content := MessageContent.text query }] (le_of_lt hlt)
      (by simpa using hOK)
    obtain ⟨m, hm⟩ : ∃ m, cap - k = m + 1 := ⟨cap - k - 1, by omega⟩
    rw [hm] at hsplit
    have hstep := genRounds_raised g client tools (some tm) (system_content hist) m
      (0 + k)
      ([{ role := "user", content := MessageContent.text query }] ++
        roundsMsgs client tm 0 k) e (by simpa using hraise)
    rw [hstep] at hsplit
    simp only [Prod.fst, Prod.snd] at hsplit
    rw [generate_response_of_loop g client query hist tools (some tm) cap _ _ hsplit]
  · rw [if_neg hlt]
    have hkc : k = cap := by omega
    subst hkc
    have hall := genRounds_all_tool g client tools tm (system_content hist) k
      [{ role := "user", content := MessageContent.text query }] hOK
    rw [generate_response_of_loop g client query hist tools (some tm) k _ _ hall]
    simp only [List.length_map, List.length_range]
    exact make_final_response_raised g client k _ (system_content hist) e hraise

/-- C10: every LLM call issued within one run — each round call and the
forced final call — uses the same fixed request parameters (the
constructor's model id, temperature 0, max_tokens 800) and the identical
system-instruction string composed once at the start of the run: the static
prompt, plus the previous-conversation section exactly when a conversation
history was supplied. -/
theorem generate_response_fixed_params (g : AIGenerator) (client : Client)
    (query : String) (hist : Option String) (tools : Option (List ToolDef))
    (tm : Option ToolManager) (cap : Nat) :
    (∀ p ∈ (generate_response g client query hist tools tm cap).2,
        p.model = g.model ∧ p.temperature = 0 ∧ p.max_tokens = 800 ∧
          p.system = system_content hist) ∧
      system_content none = SYSTEM_PROMPT ∧
      ∀ h : String, h ≠ "" →
        system_content (some h) =
          SYSTEM_PROMPT ++ "\n\nPrevious conversation:\n" ++ h := by
  refine ⟨?_, rfl, ?_⟩
  · intro p hp
    obtain ⟨ext, hext, hcases⟩ := generate_response_trace_extends g client query
      hist tools tm cap
    rw [hext] at hp
    rcases List.mem_append.mp hp with hmem | hmem
    · exact genRounds_params g client tools tm (system_content hist) cap 0 _ p hmem
    · rcases hcases with rfl | ⟨msgs, rfl⟩
      · simp at hmem
      · rcases List.mem_singleton.mp hmem with rfl
        obtain ⟨a, b, c, d, -⟩ := finalParams_fields g msgs (system_content hist)
        exact ⟨a, b, c, d⟩
  · intro h hh
    simp [system_content, hh]

theorem generate_response_msgs_at (g : AIGenerator) (client : Client)
    (query : String) (hist : Option String) (tools : Option (List ToolDef))
    (tm : ToolManager) (cap k : Nat)
    (hOK : ∀ j, j < k → toolRoundOK client tm j) (hk : k ≤ cap) :
    ∀ j, j ≤ k →
      ∃ p, (generate_response g client query hist tools (some tm) cap).2[j]? =
          some p ∧
        p.messages =
          [{ role := "user", content := MessageContent.text query }] ++
            roundsMsgs client tm 0 j := by
  intro j hj
  by_cases hkc : k = cap
  · subst hkc
    have hall := genRounds_all_tool g client tools tm (system_content hist) k
      [{ role := "user", content := MessageContent.text query }] hOK
    rw [generate_response_of_loop g client query hist tools (some tm) k _ _ hall]
    simp only [make_final_response_trace]
    by_cases hjk : j < k
    · have heq : (List.map
          (fun j => g.roundParams
            ([{ role := "user", content := MessageContent.text query }] ++
              roundsMsgs client tm 0 j) (system_content hist) tools)
          (List.range k) ++
          [g.finalParams
            ([{ role := "user", content := MessageContent.text query }] ++
              roundsMsgs client tm 0 k) (system_content hist)])[j]? =
          some (g.roundParams
            ([{ role := "user", content := MessageContent.text query }] ++
              roundsMsgs client tm 0 j) (system_content hist) tools) := by
        rw [List.getElem?_append_left (by simpa using hjk)]
        simp [List.getElem?_range hjk]
      exact ⟨_, heq, rfl⟩
    · have hjeq : j = k := by omega
      subst hjeq
      have heq : (List.map
          (fun i => g.roundParams
            ([{ role := "user", content := MessageContent.text query }] ++
              roundsMsgs client tm 0 i) (system_content hist) tools)
          (List.range j) ++
          [g.finalParams
            ([{ role := "user", content := MessageContent.text query }] ++
              roundsMsgs client tm 0 j) (system_content hist)])[j]? =
          some (g.finalParams
            ([{ role := "user", content := MessageContent.text query }] ++
              roundsMsgs client tm 0 j) (system_content hist)) := by
        rw [List.getElem?_append_right (by simp)]
        simp
      exact ⟨_, heq, rfl⟩
  · have hklt : k < cap := by omega
    have hsplit := genRounds_split g client tools tm (system_content hist) k cap 0
      [{ role := "user", content := MessageContent.text query }] (le_of_lt hklt)
      (by simpa using hOK)
    obtain ⟨m, hm⟩ : ∃ m, cap - k = m + 1 := ⟨cap - k - 1, by omega⟩
    rw [hm] at hsplit
    obtain ⟨rest, hrest⟩ : ∃ rest,
        (genRounds g client tools (some tm) (system_content hist) (m + 1) (0 + k)
          ([{ role := "user", content := MessageContent.text query }] ++
            roundsMsgs client tm 0 k)).2 =
        g.roundParams
          ([{ role := "user", content := MessageContent.text query }] ++
            roundsMsgs client tm 0 k) (system_content hist) tools :: rest := by
      rcases genRounds_succ_trace g client tools (some tm) (system_content hist) m
          (0 + k)
          ([{ role := "user", content := MessageContent.text query }] ++
            roundsMsgs client tm 0 k) with h1 | ⟨tmgr, r, -, -, -, -, h2⟩
      · exact ⟨[], by rw [h1]⟩
      · exact ⟨_, by rw [h2]⟩
    obtain ⟨ext, hext, -⟩ := generate_response_trace_extends g client query hist
      tools (some tm) cap
    rw [hsplit] at hext
    simp only [Prod.snd] at hext
    rw [hrest] at hext
    rw [hext]
    by_cases hjk : j < k
    · have heq : ((List.map
          (fun i => g.roundParams
            ([{ role := "user", content := MessageContent.text query }] ++
              roundsMsgs client tm 0 i) (system_content hist) tools)
          (List.range k) ++
          g.roundParams
            ([{ role := "user", content := MessageContent.text query }] ++
              roundsMsgs client tm 0 k) (system_content hist) tools :: rest) ++
          ext)[j]? =
          some (g.roundParams
            ([{ role := "user", content := MessageContent.text query }] ++
              roundsMsgs client tm 0 j) (system_content hist) tools) := by
        rw [List.getElem?_append_left (by simp; omega)]
        rw [List.getElem?_append_left (by simpa using hjk)]
        simp [List.getElem?_range hjk]
      exact ⟨_, heq, rfl⟩
    · have hjeq : j = k := by omega
      subst hjeq
      have heq : ((List.map
          (fun i => g.roundParams
            ([{ role := "user", content := MessageContent.text query }] ++
              roundsMsgs client tm 0 i) (system_content hist) tools)
          (List.range j) ++
          g.roundParams
            ([{ role := "user", content := MessageContent.text query }] ++
              roundsMsgs client tm 0 j) (system_content hist) tools :: rest) ++
          ext)[j]? =
          some (g.roundParams
            ([{ role := "user", content := MessageContent.text query }] ++
              roundsMsgs client tm 0 j) (system_content hist) tools) := by
        rw [List.getElem?_append_left (by simp)]
        rw [List.getElem?_append_right (by simp)]
        simp
      exact ⟨_, heq, rfl⟩

/-- C6: the conversation grows monotonically through a run — it is seeded
with exactly one user turn holding the raw query, and each completed tool
round appends exactly two turns, the model's assistant tool-invocation turn
followed by one combined user turn holding one tool_result block per
requested call, each correlated to the originating call id, with the
round's calls executed in the order the model listed them before the next
LLM call (the correlation below pairs, in order, the response's tool_use
blocks with the results of the user turn sent on the next call). -/
theorem generate_response_conversation_growth (g : AIGenerator)
    (client : Client) (query : String) (hist : Option String)
    (tools : Option (List ToolDef)) (tm : ToolManager) (cap k : Nat)
    (hOK : ∀ j, j < k → toolRoundOK client tm j) (hk : k ≤ cap) :
    (∃ p0, (generate_response g client query hist tools (some tm) cap).2[0]? =
        some p0 ∧
      p0.messages = [{ role := "user", content := MessageContent.text query }]) ∧
    ∀ j, j < k →
      ∃ p p' r,
        (generate_response g client query hist tools (some tm) cap).2[j]? =
          some p ∧
        (generate_response g client query hist tools (some tm) cap).2[j + 1]? =
          some p' ∧
        client j = Except.ok r ∧
        p'.messages = p.messages ++
          [{ role := "assistant", content := MessageContent.blocks r.content },
           { role := "user",
             content := MessageContent.toolResults (execute_tools tm r) }] ∧
        List.Forall₂ (fun (b : ContentBlock) (res : ToolResult) =>
            res.type = "tool_result" ∧ res.tool_use_id = b.id ∧
            tm b.name b.input = Except.ok res.content)
          (r.content.filter (fun b => b.type == "tool_use"))
          (execute_tools tm r) := by
  constructor
  · obtain ⟨p0, h0, hmsg⟩ := generate_response_msgs_at g client query hist tools
      tm cap k hOK hk 0 (Nat.zero_le k)
    refine ⟨p0, h0, ?_⟩
    simpa [roundsMsgs] using hmsg
  · intro j hjk
    obtain ⟨r, hc, hstop, hne⟩ := hOK j hjk
    obtain ⟨p, hpj, hpm⟩ := generate_response_msgs_at g client query hist tools
      tm cap k hOK hk j (le_of_lt hjk)
    obtain ⟨p', hpj', hpm'⟩ := generate_response_msgs_at g client query hist tools
      tm cap k hOK hk (j + 1) hjk
    refine ⟨p, p', r, hpj, hpj', hc, ?_, execute_tools_correlated tm r hne⟩
    rw [hpm, hpm', roundsMsgs_succ_right]
    simp [pairAt, hc, roundPair, List.append_assoc]

/-- Containment of `sub` in `s` as a contiguous substring, phrased on the
underlying character lists. -/
def containsStr (s sub : String) : Prop := sub.data <:+: s.data

instance (s sub : String) : Decidable (containsStr s sub) :=
  inferInstanceAs (Decidable (sub.data <:+: s.data))

theorem prefix_drop_sep {α : Type} (c : α) :
    ∀ (sub a b : List α), c ∉ sub → sub <+: a ++ c :: b → sub <+: a := by
  intro sub
  induction sub with
  | nil => intro a b _ _; exact ⟨a, rfl⟩
  | cons s sub' ih =>
    intro a b hc hpre
    cases a with
    | nil =>
      rw [List.nil_append] at hpre
      rcases List.cons_prefix_cons.mp hpre with ⟨rfl, -⟩
      exact absurd (List.mem_cons_self _ _) hc
    | cons x a' =>
      rw [List.cons_append] at hpre
      rcases List.cons_prefix_cons.mp hpre with ⟨rfl, htail⟩
      exact List.cons_prefix_cons.mpr
        ⟨rfl, ih a' b (fun h => hc (List.mem_cons_of_mem _ h)) htail⟩

theorem infix_drop_sep {α : Type} (c : α) (sub b : List α) (hc : c ∉ sub) :
    ∀ a : List α, sub <:+: a ++ c :: b → sub <:+: a ∨ sub <:+: b := by
  intro a
  induction a with
  | nil =>
    intro h
    rw [List.nil_append] at h
    rcases List.infix_cons_iff.mp h with hpre | hinf
    · cases sub with
      | nil => exact Or.inl ⟨[], [], rfl⟩
      | cons s sub' =>
        rcases List.cons_prefix_cons.mp hpre with ⟨rfl, -⟩
        exact absurd (List.mem_cons_self _ _) hc
    · exact Or.inr hinf
  | cons x a' ih =>
    intro h
    rw [List.cons_append] at h
    rcases List.infix_cons_iff.mp h with hpre | hinf
    · have hp : sub <+: x :: a' := by
        have := prefix_drop_sep c sub (x :: a') b hc (by rwa [List.cons_append])
        exact this
      exact Or.inl hp.isInfix
    · rcases ih hinf with h1 | h2
      · exact Or.inl (List.infix_cons h1)
      · exact Or.inr h2

theorem formatBlock_no_lesson_free (C doc : String)
    (hC : ¬ containsStr C "Lesson") (hdoc : ¬ containsStr doc "Lesson") :
    ¬ containsStr
      (formatBlock { document := doc, course_title := C, lesson_number := none })
      "Lesson" := by
  intro h
  have hdata : (formatBlock
      { document := doc, course_title := C, lesson_number := none }).data =
      '[' :: (C.data ++ (']' :: ('\n' :: doc.data))) := by
    show ((("[" ++ C ++ "]") ++ "\n") ++ doc).data = _
    rw [String.data_append, String.data_append, String.data_append,
      String.data_append]
    rw [show "[".data = ['['] from rfl, show "]".data = [']'] from rfl,
      show "\n".data = ['\n'] from rfl]
    simp
  have hL : ("Lesson".data) = 'L' :: ['e', 's', 's', 'o', 'n'] := rfl
  unfold containsStr at h
  rw [hdata] at h
  rcases List.infix_cons_iff.mp h with hpre | hinf
  · rw [hL] at hpre
    rcases List.cons_prefix_cons.mp hpre with ⟨hab, -⟩
    simp at hab
  · rcases infix_drop_sep ']' ("Lesson".data) ('\n' :: doc.data) (by decide)
        C.data hinf with h1 | h2
    · exact hC h1
    · rcases List.infix_cons_iff.mp h2 with hpre2 | hinf2
      · rw [hL] at hpre2
        rcases List.cons_prefix_cons.mp hpre2 with ⟨hab, -⟩
        simp at hab
      · exact hdoc hinf2

/-- C7 counterexample: a match whose course title itself holds the word
Lesson renders, with no lesson number, as a block that does contain the
substring "Lesson", so the claim's "no Lesson substring anywhere in that
block" fails as universally stated. -/
theorem formatBlock_lesson_counterexample :
    formatBlock ⟨"Content overview", "Lesson Planning 101", none⟩ =
      "[Lesson Planning 101]" ++ "\n" ++ "Content overview" ∧
    containsStr (formatBlock ⟨"Content overview", "Lesson Planning 101", none⟩)
      "Lesson" := by
  exact ⟨rfl, by decide⟩

/-- C7 (amended): each matched snippet renders as a labeled block followed
by the snippet text, blocks separated by a blank line; with lesson number
`n` the block starts with "[C - Lesson n]", and with no lesson number the
block is exactly "[C]" followed by the snippet text and contains no
"Lesson" substring provided neither the course title nor the snippet text
contains one (the formatter itself contributes none). -/
theorem format_results_blocks (C doc : String) (n : Nat) (m1 m2 : SearchMatch)
    (hC : ¬ containsStr C "Lesson") (hdoc : ¬ containsStr doc "Lesson") :
    ("[" ++ C ++ " - Lesson " ++ toString n ++ "]").data <+:
        (formatBlock ⟨doc, C, some n⟩).data ∧
      formatBlock ⟨doc, C, none⟩ = "[" ++ C ++ "]" ++ "\n" ++ doc ∧
      ¬ containsStr (formatBlock ⟨doc, C, none⟩) "Lesson" ∧
      format_results [m1, m2] = formatBlock m1 ++ "\n\n" ++ formatBlock m2 := by
  refine ⟨?_, rfl, formatBlock_no_lesson_free C doc hC hdoc, rfl⟩
  have hb : formatBlock ⟨doc, C, some n⟩ =
      ("[" ++ C ++ " - Lesson " ++ toString n ++ "]") ++ ("\n" ++ doc) := by
    show (("[" ++ C ++ " - Lesson " ++ toString n ++ "]") ++ "\n") ++ doc = _
    rw [String.append_assoc]
  rw [hb, String.data_append]
  exact List.prefix_append _ _

/-- A concrete generator instance for the closed evaluations below. -/
def gTest : AIGenerator :=
  { api_key := "test-api-key", model := "claude-sonnet-4-20250514" }

/-- A tool manager whose tools always return a fixed result string. -/
def tmOk : ToolManager := fun _ _ => Except.ok "Tool result"

/-- A tool manager whose tools always raise. -/
def tmRaise : ToolManager := fun _ _ => Except.error "Boom"

/-- A concrete tool-use content block. -/
def toolBlock : ContentBlock :=
  { type := "tool_use", text := "tool response", name := "search_course_content",
    id := "tool_1", input := [("query", "RAG")] }

/-- A response requesting one tool call. -/
def respTool : LLMResponse := { stop_reason := "tool_use", content := [toolBlock] }

/-- A concrete plain text block. -/
def textBlock : ContentBlock :=
  { type := "text", text := "General knowledge answer", name := "", id := "",
    input := [] }

/-- A direct-answer response. -/
def respEnd : LLMResponse := { stop_reason := "end_turn", content := [textBlock] }

/-- A response with the tool-use stop reason but no tool_use block. -/
def respOddTool : LLMResponse :=
  { stop_reason := "tool_use", content := [textBlock] }

/-- A client that requests tools on every call. -/
def clientAllTool : Client := fun _ => Except.ok respTool

/-- A client that requests tools once and then answers directly. -/
def clientToolThenEnd : Client := fun i =>
  if i = 0 then Except.ok respTool else Except.ok respEnd

/-- A client that requests tools on its first two calls and then answers. -/
def clientTwoToolThenEnd : Client := fun i =>
  if i < 2 then Except.ok respTool else Except.ok respEnd

/-- A client that requests tools on its first two calls, then raises. -/
def clientTwoToolThenErr : Client := fun i =>
  if i < 2 then Except.ok respTool else Except.error "API Error"

/-- A client that always raises. -/
def clientErr : Client := fun _ => Except.error "API Error"

/-- A client that always answers with respOddTool. -/
def clientOddTool : Client := fun _ => Except.ok respOddTool

/-- C4 counterexample: a run whose two rounds request tools and whose forced
final call raises returns the error string as an ordinary result — the
exception is caught inside the final call and does not propagate. -/
theorem generate_response_final_raise_caught :
    (generate_response gTest clientTwoToolThenErr "What is RAG?" none
        (some [{ name := "search_course_content" }]) (some tmOk) 2).1 =
      Except.ok "Error generating final response: API Error" := by
  rfl

theorem generate_response_cap_exhausted_witness :
    (generate_response gTest clientTwoToolThenEnd "What is in lesson 1?" none
        (some [{ name := "search_course_content" }]) (some tmOk) 2).1 =
        Except.ok "General knowledge answer" ∧
      (generate_response gTest clientTwoToolThenEnd "What is in lesson 1?" none
        (some [{ name := "search_course_content" }]) (some tmOk) 2).2.length = 3 ∧
      ∃ p, (generate_response gTest clientTwoToolThenEnd "What is in lesson 1?"
          none (some [{ name := "search_course_content" }])
          (some tmOk) 2).2.getLast? =
          some p ∧ p.tools = none ∧ p.tool_choice = none :=
  generate_response_cap_exhausted gTest clientTwoToolThenEnd
    "What is in lesson 1?" none (some [{ name := "search_course_content" }])
    tmOk 2 respEnd textBlock []
    (by
      intro j hj
      exact ⟨respTool, by unfold clientTwoToolThenEnd; rw [if_pos hj], rfl,
        by decide⟩)
    rfl rfl

theorem generate_response_k_rounds_direct_witness :
    (generate_response gTest clientToolThenEnd "What is RAG?" none
        (some [{ name := "search_course_content" }]) (some tmOk) 2).1 =
        Except.ok "General knowledge answer" ∧
      (generate_response gTest clientToolThenEnd "What is RAG?" none
        (some [{ name := "search_course_content" }]) (some tmOk) 2).2.length =
        2 :=
  generate_response_k_rounds_direct gTest clientToolThenEnd "What is RAG?" none
    (some [{ name := "search_course_content" }]) tmOk 2 1 respEnd textBlock []
    (by
      intro j hj
      have hj0 : j = 0 := by omega
      subst hj0
      exact ⟨respTool, rfl, rfl, by decide⟩)
    (by omega) rfl (by decide) rfl

theorem generate_response_tool_raise_witness :
    execute_tools tmRaise respTool = [] ∧
      (generate_response gTest clientAllTool "What is RAG?" none
        (some [{ name := "search_course_content" }]) (some tmRaise) 2).1 =
        Except.ok "Tool execution failed" ∧
      (generate_response gTest clientAllTool "What is RAG?" none
        (some [{ name := "search_course_content" }]) (some tmRaise) 2).2.length =
        1 :=
  generate_response_tool_raise gTest clientAllTool "What is RAG?" none
    (some [{ name := "search_course_content" }]) tmRaise 2 0 respTool
    (by intro j hj; exact absurd hj (Nat.not_lt_zero j))
    (by omega) rfl rfl
    ⟨toolBlock, by decide, rfl, "Boom", rfl⟩

theorem generate_response_no_manager_witness :
    (generate_response gTest clientAllTool "What is RAG?" none
        (some [{ name := "search_course_content" }]) none 2).1 =
        Except.ok "tool response" ∧
      (generate_response gTest clientAllTool "What is RAG?" none
        (some [{ name := "search_course_content" }]) none 2).2.length = 1 :=
  generate_response_no_manager gTest clientAllTool "What is RAG?" none
    (some [{ name := "search_course_content" }]) 2 respTool toolBlock []
    (by omega) rfl rfl rfl

theorem generate_response_no_tool_blocks_witness :
    execute_tools tmOk respOddTool = [] ∧
      (generate_response gTest clientOddTool "What is RAG?" none
        (some [{ name := "search_course_content" }]) (some tmOk) 2).1 =
        Except.ok "Tool execution failed" ∧
      (generate_response gTest clientOddTool "What is RAG?" none
        (some [{ name := "search_course_content" }]) (some tmOk) 2).2.length =
        1 :=
  generate_response_no_tool_blocks gTest clientOddTool "What is RAG?" none
    (some [{ name := "search_course_content" }]) tmOk 2 0 respOddTool
    (by intro j hj; exact absurd hj (Nat.not_lt_zero j))
    (by omega) rfl rfl (by decide)

theorem generate_response_llm_raise_witness :
    (generate_response gTest clientErr "What is RAG?" none
        (some [{ name := "search_course_content" }]) (some tmOk) 2).1 =
      Except.error "API Error" :=
  generate_response_llm_raise gTest clientErr "What is RAG?" none
    (some [{ name := "search_course_content" }]) tmOk 2 0 "API Error"
    (by intro j hj; exact absurd hj (Nat.not_lt_zero j))
    (by omega) rfl

theorem generate_response_conversation_growth_witness :
    (∃ p0, (generate_response gTest clientTwoToolThenEnd "What is RAG?" none
        (some [{ name := "search_course_content" }]) (some tmOk) 2).2[0]? =
        some p0 ∧
      p0.messages =
        [{ role := "user", content := MessageContent.text "What is RAG?" }]) ∧
    ∀ j, j < 1 →
      ∃ p p' r,
        (generate_response gTest clientTwoToolThenEnd "What is RAG?" none
          (some [{ name := "search_course_content" }]) (some tmOk) 2).2[j]? =
          some p ∧
        (generate_response gTest clientTwoToolThenEnd "What is RAG?" none
          (some [{ name := "search_course_content" }]) (some tmOk) 2).2[j + 1]? =
          some p' ∧
        clientTwoToolThenEnd j = Except.ok r ∧
        p'.messages = p.messages ++
          [{ role := "assistant", content := MessageContent.blocks r.content },
           { role := "user",
             content := MessageContent.toolResults (execute_tools tmOk r) }] ∧
        List.Forall₂ (fun (b : ContentBlock) (res : ToolResult) =>
            res.type = "tool_result" ∧ res.tool_use_id = b.id ∧
            tmOk b.name b.input = Except.ok res.content)
          (r.content.filter (fun b => b.type == "tool_use"))
          (execute_tools tmOk r) :=
  generate_response_conversation_growth gTest clientTwoToolThenEnd "What is RAG?"
    none (some [{ name := "search_course_content" }]) tmOk 2 1
    (by
      intro j hj
      have hj0 : j = 0 := by omega
      subst hj0
      exact ⟨respTool, rfl, rfl, by decide⟩)
    (by omega)

theorem format_results_blocks_witness :
    ("[" ++ "RAG Course" ++ " - Lesson " ++ toString 2 ++ "]").data <+:
        (formatBlock ⟨"General course content", "RAG Course", some 2⟩).data ∧
      formatBlock ⟨"General course content", "RAG Course", none⟩ =
        "[" ++ "RAG Course" ++ "]" ++ "\n" ++ "General course content" ∧
      ¬ containsStr (formatBlock ⟨"General course content", "RAG Course", none⟩)
        "Lesson" ∧
      format_results [⟨"Content about vector databases", "RAG Course", some 2⟩,
          ⟨"General course content", "RAG Course", none⟩] =
        formatBlock ⟨"Content about vector databases", "RAG Course", some 2⟩ ++
          "\n\n" ++ formatBlock ⟨"General course content", "RAG Course", none⟩ :=
  format_results_blocks "RAG Course" "General course content" 2
    ⟨"Content about vector databases", "RAG Course", some 2⟩
    ⟨"General course content", "RAG Course", none⟩
    (by decide) (by decide)
